import Mathlib

/-!
Verification of the `VideoExporter` export pipeline (openscreen).

The definitions below are a shallow embedding of the TypeScript class
`VideoExporter`: pure time arithmetic is translated to functions over `ℚ`
(JavaScript numbers, used here only at exactly representable values),
the frame loop to a recursion producing the loop's observable events, the
encoder-initialization and muxing logic to functions over an explicit
environment describing the platform's answers, and the mutable exporter
fields to an explicit state record.
-/

namespace VideoExporter

/-- A trim region in source-timeline milliseconds (`TrimRegion` of the
video-editor types): a contiguous interval removed from the export. -/
structure TrimRegion where
  startMs : ℚ
  endMs : ℚ
deriving DecidableEq, Repr

/-- Sorting of the trim regions ascending by start time, as done by
`[...trimRegions].sort((a, b) => a.startMs - b.startMs)` (a stable sort
by `startMs`). -/
def sortTrims (trims : List TrimRegion) : List TrimRegion :=
  trims.mergeSort (fun a b => decide (a.startMs ≤ b.startMs))

/-- The loop of `mapEffectiveToSourceTime`: walk the sorted trims with the
running `sourceTimeMs`; break at the first trim with `sourceTimeMs <
trim.startMs`, otherwise add the trim's duration and continue. -/
def mapGo : List TrimRegion → ℚ → ℚ
  | [], sourceTimeMs => sourceTimeMs
  | trim :: rest, sourceTimeMs =>
      if sourceTimeMs < trim.startMs then sourceTimeMs
      else mapGo rest (sourceTimeMs + (trim.endMs - trim.startMs))

/-- `VideoExporter.mapEffectiveToSourceTime`: map an effective-timeline
instant (ms) to the corresponding source-timeline instant (ms), skipping
the trim regions. -/
def mapEffectiveToSourceTime (trims : List TrimRegion) (effectiveTimeMs : ℚ) : ℚ :=
  mapGo (sortTrims trims) effectiveTimeMs

/-- `VideoExporter.getEffectiveDuration`: the total duration (seconds)
minus the summed trim durations, each converted from ms to seconds,
accumulated with a left fold exactly as the `reduce` in the source. -/
def getEffectiveDuration (trims : List TrimRegion) (totalDuration : ℚ) : ℚ :=
  totalDuration - trims.foldl (fun sum region => sum + (region.endMs - region.startMs) / 1000) 0

/-- The frame count computed by `export()`:
`totalFrames = Math.ceil(effectiveDuration * frameRate)`. -/
def totalFrames (trims : List TrimRegion) (duration frameRate : ℚ) : ℤ :=
  ⌈getEffectiveDuration trims duration * frameRate⌉

/-- The walk described by the specification text for
`mapEffectiveToSource`: sort ascending by `startMs`, then for each trim
whose `startMs ≤ sourceTime` (against the running, already-adjusted
`sourceTime`) add the trim's length and continue; stop at the first trim
whose `startMs > sourceTime`. Stated from the spec's words, to be compared
with `mapEffectiveToSourceTime` above. -/
def specWalkGo : List TrimRegion → ℚ → ℚ
  | [], sourceTime => sourceTime
  | trim :: rest, sourceTime =>
      if trim.startMs ≤ sourceTime then specWalkGo rest (sourceTime + (trim.endMs - trim.startMs))
      else sourceTime

/-- The specification's `mapEffectiveToSource(effectiveTimeMs, trims)`. -/
def mapEffectiveToSource_specWalk (trims : List TrimRegion) (effectiveTimeMs : ℚ) : ℚ :=
  specWalkGo (sortTrims trims) effectiveTimeMs

end VideoExporter

namespace VideoExporter

theorem mapGo_eq_specWalkGo (l : List TrimRegion) (s : ℚ) : mapGo l s = specWalkGo l s := by
  induction l generalizing s with
  | nil => rfl
  | cons trim rest ih =>
      simp only [mapGo, specWalkGo]
      rcases lt_or_le s trim.startMs with h | h
      · rw [if_pos h, if_neg (not_le_of_lt h)]
      · rw [if_neg (not_lt_of_le h), if_pos h, ih]

theorem mapGo_le (l : List TrimRegion) (h : ∀ t ∈ l, t.startMs ≤ t.endMs) (s : ℚ) :
    s ≤ mapGo l s := by
  induction l generalizing s with
  | nil => exact le_refl s
  | cons trim rest ih =>
      simp only [mapGo]
      rcases lt_or_le s trim.startMs with hlt | hle
      · rw [if_pos hlt]
      · rw [if_neg (not_lt_of_le hle)]
        have hd : trim.startMs ≤ trim.endMs := h trim (List.mem_cons_self trim rest)
        have h1 : s ≤ s + (trim.endMs - trim.startMs) := by linarith
        exact le_trans h1 (ih (fun t ht => h t (List.mem_cons_of_mem trim ht)) _)

theorem mapGo_mono (l : List TrimRegion) (h : ∀ t ∈ l, t.startMs ≤ t.endMs)
    (s₁ s₂ : ℚ) (hs : s₁ ≤ s₂) : mapGo l s₁ ≤ mapGo l s₂ := by
  induction l generalizing s₁ s₂ with
  | nil => exact hs
  | cons trim rest ih =>
      have hrest : ∀ t ∈ rest, t.startMs ≤ t.endMs :=
        fun t ht => h t (List.mem_cons_of_mem trim ht)
      have hd : trim.startMs ≤ trim.endMs := h trim (List.mem_cons_self trim rest)
      simp only [mapGo]
      rcases lt_or_le s₁ trim.startMs with h₁ | h₁ <;> rcases lt_or_le s₂ trim.startMs with h₂ | h₂
      · rw [if_pos h₁, if_pos h₂]; exact hs
      · rw [if_pos h₁, if_neg (not_lt_of_le h₂)]
        have hstep : s₁ ≤ s₂ + (trim.endMs - trim.startMs) := by linarith
        exact le_trans hstep (mapGo_le rest hrest _)
      · exact absurd (lt_of_le_of_lt hs h₂) (not_lt_of_le h₁)
      · rw [if_neg (not_lt_of_le h₁), if_neg (not_lt_of_le h₂)]
        exact ih hrest _ _ (by linarith)

theorem mem_sortTrims (trims : List TrimRegion) (t : TrimRegion) (h : t ∈ sortTrims trims) :
    t ∈ trims :=
  ((List.mergeSort_perm trims _).mem_iff).mp h

end VideoExporter

namespace VideoExporter

/-- C1: `mapEffectiveToSourceTime` computes exactly the specified walk — sort
the trims ascending by `startMs`, then repeatedly shift the running source
time past every trim whose start it has reached, stopping at the first trim
whose start exceeds it; with zero trims it is the identity, and for the
single trim {startMs 2000, endMs 4000} it maps 1500 ms to 1500 ms and
2500 ms to 4500 ms. -/
theorem mapEffectiveToSourceTime_eq_specWalk :
    (∀ (trims : List TrimRegion) (t : ℚ),
        mapEffectiveToSourceTime trims t = mapEffectiveToSource_specWalk trims t)
    ∧ (∀ t : ℚ, mapEffectiveToSourceTime [] t = t)
    ∧ mapEffectiveToSourceTime [⟨2000, 4000⟩] 1500 = 1500
    ∧ mapEffectiveToSourceTime [⟨2000, 4000⟩] 2500 = 4500 := by
  refine ⟨fun trims t => mapGo_eq_specWalkGo _ t,
    fun t => by simp [mapEffectiveToSourceTime, sortTrims, mapGo], ?_, ?_⟩
  · norm_num [mapEffectiveToSourceTime, sortTrims, mapGo]
  · norm_num [mapEffectiveToSourceTime, sortTrims, mapGo]

/-- C2: for any trim configuration whose regions all satisfy
`startMs < endMs`, `mapEffectiveToSourceTime` is monotone non-decreasing
in the effective time. -/
theorem mapEffectiveToSourceTime_mono (trims : List TrimRegion)
    (hvalid : ∀ t ∈ trims, t.startMs < t.endMs) (t₁ t₂ : ℚ) (h : t₁ < t₂) :
    mapEffectiveToSourceTime trims t₁ ≤ mapEffectiveToSourceTime trims t₂ :=
  mapGo_mono (sortTrims trims)
    (fun t ht => le_of_lt (hvalid t (mem_sortTrims trims t ht))) t₁ t₂ (le_of_lt h)

/-- Witness for C2: monotonicity at the concrete trim {2000, 4000} and the
pair of effective times 1500 ms and 2500 ms. -/
theorem mapEffectiveToSourceTime_mono_witness :
    mapEffectiveToSourceTime [⟨2000, 4000⟩] 1500 ≤ mapEffectiveToSourceTime [⟨2000, 4000⟩] 2500 :=
  mapEffectiveToSourceTime_mono [⟨2000, 4000⟩]
    (by intro t ht; rw [List.mem_singleton] at ht; subst ht; norm_num) 1500 2500 (by norm_num)

end VideoExporter

namespace VideoExporter

/-- The `ExportProgress` record passed to the `onProgress` callback. -/
structure ExportProgress where
  currentFrame : ℕ
  totalFrames : ℤ
  percentage : ℚ
  estimatedTimeRemaining : ℚ
deriving DecidableEq, Repr

/-- Observable events of one run of the export frame loop. -/
inductive FrameEvent
  | encodeFrame (frameIndex : ℕ) (keyFrame : Bool)
  | encoderNotReady (frameIndex : ℕ)
  | progressReport (p : ExportProgress)
deriving DecidableEq, Repr

/-- Whether a frame-loop event is a progress report. -/
def FrameEvent.isProgress : FrameEvent → Bool
  | progressReport _ => true
  | _ => false

/-- Whether a frame-loop event is an `encode` submission. -/
def FrameEvent.isEncode : FrameEvent → Bool
  | encodeFrame _ _ => true
  | _ => false

/-- The progress record carried by a frame-loop event, if any. -/
def FrameEvent.progressOf : FrameEvent → Option ExportProgress
  | progressReport p => some p
  | _ => none

/-- The events of one iteration of the frame loop at frame index `i`:
if the encoder is in the configured state, increment the queue and submit
the frame (key frame every 150th); otherwise only warn; then, when an
`onProgress` callback is configured, report progress once with
`currentFrame = i + 1`, the fixed total, `percentage = (i+1)/totalFrames*100`
and `estimatedTimeRemaining = 0`. -/
def frameIter (encoderReady : ℕ → Bool) (hasOnProgress : Bool) (tf : ℤ) (i : ℕ) :
    List FrameEvent :=
  (if encoderReady i then [.encodeFrame i (i % 150 == 0)] else [.encoderNotReady i])
    ++ (if hasOnProgress then
          [.progressReport ⟨i + 1, tf, ((i : ℚ) + 1) / (tf : ℚ) * 100, 0⟩]
        else [])

/-- The frame loop of `export()` started at frame index `i`: it runs while
`frameIndex < totalFrames` (without cancellation), one `frameIter` per
iteration. -/
def frameLoopFrom (encoderReady : ℕ → Bool) (hasOnProgress : Bool) (tf : ℤ) (i : ℕ) :
    List FrameEvent :=
  if _h : (i : ℤ) < tf then
    frameIter encoderReady hasOnProgress tf i
      ++ frameLoopFrom encoderReady hasOnProgress tf (i + 1)
  else []
termination_by (tf - (i : ℤ)).toNat
decreasing_by omega

/-- The frame loop of `export()`, starting at frame index 0. -/
def frameLoop (encoderReady : ℕ → Bool) (hasOnProgress : Bool) (tf : ℤ) : List FrameEvent :=
  frameLoopFrom encoderReady hasOnProgress tf 0

theorem frameIter_progressOf (enc : ℕ → Bool) (tf : ℤ) (i : ℕ) :
    (frameIter enc true tf i).filterMap FrameEvent.progressOf
      = [⟨i + 1, tf, ((i : ℚ) + 1) / (tf : ℚ) * 100, 0⟩] := by
  cases h : enc i <;>
    simp [frameIter, h, FrameEvent.progressOf, List.filterMap_append]

theorem frameIter_frameCount (enc : ℕ → Bool) (hp : Bool) (tf : ℤ) (i : ℕ) :
    (frameIter enc hp tf i).countP (fun e => !e.isProgress) = 1 := by
  cases h : enc i <;> cases hp <;>
    simp [frameIter, h, FrameEvent.isProgress, List.countP_append, List.countP_cons]

theorem frameLoopFrom_progressOf (enc : ℕ → Bool) (tf : ℤ) (i : ℕ) :
    (frameLoopFrom enc true tf i).filterMap FrameEvent.progressOf
      = (List.range' i (tf - (i : ℤ)).toNat).map
          (fun j => ⟨j + 1, tf, ((j : ℚ) + 1) / (tf : ℚ) * 100, 0⟩) := by
  generalize hn : (tf - (i : ℤ)).toNat = n
  induction n generalizing i with
  | zero =>
      rw [frameLoopFrom, dif_neg (by omega)]
      simp
  | succ n ih =>
      have hi : (i : ℤ) < tf := by omega
      rw [frameLoopFrom, dif_pos hi, List.filterMap_append, frameIter_progressOf,
        ih (i + 1) (by omega), List.range'_succ]
      simp

theorem frameLoopFrom_frameCount (enc : ℕ → Bool) (hp : Bool) (tf : ℤ) (i : ℕ) :
    (frameLoopFrom enc hp tf i).countP (fun e => !e.isProgress) = (tf - (i : ℤ)).toNat := by
  generalize hn : (tf - (i : ℤ)).toNat = n
  induction n generalizing i with
  | zero =>
      rw [frameLoopFrom, dif_neg (by omega)]
      simp
  | succ n ih =>
      have hi : (i : ℤ) < tf := by omega
      rw [frameLoopFrom, dif_pos hi, List.countP_append, frameIter_frameCount,
        ih (i + 1) (by omega)]
      omega

/-- C4: the frame loop performs exactly `totalFrames = ceil(effectiveDuration
* frameRate)` iterations (counting iterations by their non-progress event),
whenever that count is non-negative; with no trims, an effective duration of
2.0 s at 30 fps gives 60 frames and 2.01 s at 30 fps gives 61 frames. -/
theorem frameLoop_totalFrames (enc : ℕ → Bool) (hp : Bool) (trims : List TrimRegion)
    (duration frameRate : ℚ) (h : 0 ≤ totalFrames trims duration frameRate) :
    ((frameLoop enc hp (totalFrames trims duration frameRate)).countP
        (fun e => !e.isProgress) : ℤ) = totalFrames trims duration frameRate
    ∧ totalFrames [] 2 30 = 60 ∧ totalFrames [] (201 / 100) 30 = 61 := by
  refine ⟨?_, ?_, ?_⟩
  · rw [frameLoop, frameLoopFrom_frameCount]
    simp [Int.toNat_of_nonneg h]
  · norm_num [totalFrames, getEffectiveDuration]
  · norm_num [totalFrames, getEffectiveDuration]
    rw [Int.ceil_eq_iff]
    norm_num

/-- Witness for C4 at the concrete trim-free input with duration 2 s and
frame rate 30. -/
theorem frameLoop_totalFrames_witness :
    ((frameLoop (fun _ => true) true (totalFrames [] 2 30)).countP
        (fun e => !e.isProgress) : ℤ) = totalFrames [] 2 30 :=
  (frameLoop_totalFrames (fun _ => true) true [] 2 30
    (by norm_num [totalFrames, getEffectiveDuration])).1

/-- C9: with a progress callback configured, the sequence of progress
reports emitted by the frame loop is exactly one report per iteration `i`,
carrying `currentFrame = i + 1`, the fixed `totalFrames`,
`percentage = (i+1)/totalFrames*100` and `estimatedTimeRemaining = 0` —
independent of the per-frame encoder state `enc`. -/
theorem frameLoop_progressReports (enc : ℕ → Bool) (tf : ℤ) :
    (frameLoop enc true tf).filterMap FrameEvent.progressOf
      = (List.range tf.toNat).map
          (fun i => ⟨i + 1, tf, ((i : ℚ) + 1) / (tf : ℚ) * 100, 0⟩) := by
  rw [frameLoop, frameLoopFrom_progressOf, List.range_eq_range']
  simp

end VideoExporter

namespace VideoExporter

theorem foldl_trimSum (trims : List TrimRegion) (a : ℚ) :
    trims.foldl (fun sum region => sum + (region.endMs - region.startMs) / 1000) a
      = a + (trims.map (fun region => (region.endMs - region.startMs) / 1000)).sum := by
  induction trims generalizing a with
  | nil => simp
  | cons region rest ih => simp [List.foldl_cons, ih]; ring

theorem getEffectiveDuration_eq_sub_sum (trims : List TrimRegion) (duration : ℚ) :
    getEffectiveDuration trims duration
      = duration - (trims.map (fun region => (region.endMs - region.startMs) / 1000)).sum := by
  rw [getEffectiveDuration, foldl_trimSum]
  ring

/-- Counterexample to C3: for the overlapping trim regions {0, 8000} and
{1000, 9000} (each with `startMs < endMs`) on a 10 s source,
`getEffectiveDuration` returns −6, which is negative — the effective
duration is not `≥ 0` for every trim set. -/
theorem getEffectiveDuration_neg_counterexample :
    getEffectiveDuration [⟨0, 8000⟩, ⟨1000, 9000⟩] 10 = -6
    ∧ ¬ (0 ≤ getEffectiveDuration [⟨0, 8000⟩, ⟨1000, 9000⟩] 10) := by
  norm_num [getEffectiveDuration]

/-- C3 amended: `getEffectiveDuration` always equals the source duration
minus the summed trim lengths (ms converted to seconds); the result is
non-negative whenever that summed length does not exceed the source
duration (in particular for disjoint in-range trims), and when the summed
length exactly equals the source duration (a disjoint cover of the whole
source) the effective duration is 0 and `totalFrames` is 0. -/
theorem getEffectiveDuration_spec (trims : List TrimRegion) (duration frameRate : ℚ)
    (hsum : (trims.map (fun region => (region.endMs - region.startMs) / 1000)).sum ≤ duration) :
    getEffectiveDuration trims duration
        = duration - (trims.map (fun region => (region.endMs - region.startMs) / 1000)).sum
    ∧ 0 ≤ getEffectiveDuration trims duration
    ∧ ((trims.map (fun region => (region.endMs - region.startMs) / 1000)).sum = duration →
        getEffectiveDuration trims duration = 0 ∧ totalFrames trims duration frameRate = 0) := by
  have heq := getEffectiveDuration_eq_sub_sum trims duration
  refine ⟨heq, by rw [heq]; linarith, fun hcover => ?_⟩
  have hzero : getEffectiveDuration trims duration = 0 := by rw [heq, hcover]; ring
  refine ⟨hzero, ?_⟩
  rw [totalFrames, hzero, zero_mul]
  exact Int.ceil_zero

/-- Witness for the amended C3 at the single trim {2000, 4000} on a 10 s
source: the sum of trim lengths is 2 s, below the duration, and the
effective duration 8 s is non-negative. -/
theorem getEffectiveDuration_spec_witness :
    0 ≤ getEffectiveDuration [⟨2000, 4000⟩] 10 :=
  (getEffectiveDuration_spec [⟨2000, 4000⟩] 10 30 (by norm_num)).2.1

end VideoExporter

namespace VideoExporter

/-- The WebCodecs `VideoEncoderConfig` fields that `initializeEncoder`
fills in. -/
structure VideoEncoderConfig where
  codec : String
  width : ℕ
  height : ℕ
  bitrate : ℕ
  framerate : ℚ
  latencyMode : String
  bitrateMode : String
  hardwareAcceleration : String
deriving DecidableEq, Repr

/-- The fields of the exporter's `config` that drive encoder
initialization and the frame loop. -/
structure ExporterSettings where
  codec : Option String
  width : ℕ
  height : ℕ
  bitrate : ℕ
  frameRate : ℚ
  trimRegions : Option (List TrimRegion)
  hasOnProgress : Bool
deriving DecidableEq, Repr

/-- The encoder configuration first built by `initializeEncoder`:
the requested codec (defaulted to avc1.640033), dimensions, bitrate and
frame rate, realtime latency, variable bitrate, and hardware acceleration
preferred. -/
def hardwareEncoderConfig (c : ExporterSettings) : VideoEncoderConfig where
  codec := c.codec.getD "avc1.640033"
  width := c.width
  height := c.height
  bitrate := c.bitrate
  framerate := c.frameRate
  latencyMode := "realtime"
  bitrateMode := "variable"
  hardwareAcceleration := "prefer-hardware"

/-- A call `initializeEncoder` makes against the WebCodecs encoder API:
either a static `isConfigSupported` probe or a `configure` of the created
encoder. -/
inductive EncoderInitEvent
  | checkSupport (cfg : VideoEncoderConfig)
  | configureEncoder (cfg : VideoEncoderConfig)
deriving DecidableEq, Repr

/-- Whether an encoder-initialization event is a `configure` call. -/
def EncoderInitEvent.isConfigure : EncoderInitEvent → Bool
  | configureEncoder _ => true
  | _ => false

/-- `VideoExporter.initializeEncoder`, with `support` standing for the
platform's `VideoEncoder.isConfigSupported` verdict: probe the
hardware-accelerated configuration first and configure the encoder with it
when supported; otherwise switch `hardwareAcceleration` to
`prefer-software`, probe again, configure with the software configuration
when supported, and throw "Video encoding not supported on this system"
when neither is supported. Returns the WebCodecs calls made and the
success or thrown error. -/
def initializeEncoder (support : VideoEncoderConfig → Bool) (c : ExporterSettings) :
    List EncoderInitEvent × Except String Unit :=
  let cfg := hardwareEncoderConfig c
  if support cfg then
    ([.checkSupport cfg, .configureEncoder cfg], .ok ())
  else
    let swCfg := { cfg with hardwareAcceleration := "prefer-software" }
    if support swCfg then
      ([.checkSupport cfg, .checkSupport swCfg, .configureEncoder swCfg], .ok ())
    else
      ([.checkSupport cfg, .checkSupport swCfg],
        .error "Video encoding not supported on this system")

/-- The environment of one `export()` run: the platform answers and
callback activity the exporter reacts to. -/
structure ExportEnv where
  videoSupport : VideoEncoderConfig → Bool
  audioOpusSupported : Bool
  hasAudio : Bool
  hasAudioStream : Bool
  sourceDuration : ℚ
  encoderReady : ℕ → Bool
  videoChunkWriteFails : ℕ → Bool
  audioChunkWriteFails : ℕ → Bool
  videoChunksProduced : ℕ
  audioChunksProduced : ℕ

/-- The observable outcome of one `export()` run. -/
structure ExportOutcome where
  success : Bool
  error : Option String
  encodeCalls : ℕ
  audioEncoderCreated : Bool
  audioExtractionRun : Bool
  muxPromisesResolved : ℕ
  muxErrorsLogged : ℕ

/-- The asynchronous task wrapped around one `addVideoChunk` /
`addAudioChunk` call in the encoder output callbacks: a rejected write is
caught and logged inside the task, so the task itself always resolves;
the returned value records the logged error, if any. -/
def muxChunkTask (writeResult : Except String Unit) : Option String :=
  match writeResult with
  | .ok _ => none
  | .error e => some e

/-- The result of the muxer write for the i-th video chunk. -/
def videoChunkWrite (env : ExportEnv) (i : ℕ) : Except String Unit :=
  if env.videoChunkWriteFails i then .error "Muxing error" else .ok ()

/-- The result of the muxer write for the i-th audio chunk. -/
def audioChunkWrite (env : ExportEnv) (i : ℕ) : Except String Unit :=
  if env.audioChunkWriteFails i then .error "Audio muxing error" else .ok ()

/-- One run of `VideoExporter.export()`: initialize the video encoder
(hardware first, software fallback; a thrown error is caught by the
surrounding try and returned as a failure result); create the audio
encoder only when the source has audio, an audio stream is available and
the Opus configuration is supported, and run the audio extraction pass
only when it was created; run the frame loop over
`totalFrames = ceil(effectiveDuration * frameRate)` frames; wrap every
produced chunk's muxer write in its own always-resolving task; join the
tasks and finalize, returning success. -/
def exportRun (env : ExportEnv) (c : ExporterSettings) : ExportOutcome :=
  match (initializeEncoder env.videoSupport c).2 with
  | .error e =>
      { success := false, error := some e, encodeCalls := 0
        audioEncoderCreated := false, audioExtractionRun := false
        muxPromisesResolved := 0, muxErrorsLogged := 0 }
  | .ok _ =>
      let audioEncoderCreated := env.hasAudio && (env.hasAudioStream && env.audioOpusSupported)
      let tf := totalFrames (c.trimRegions.getD []) env.sourceDuration c.frameRate
      let events := frameLoop env.encoderReady c.hasOnProgress tf
      let videoTasks :=
        (List.range env.videoChunksProduced).map (fun i => muxChunkTask (videoChunkWrite env i))
      let audioTasks :=
        (List.range env.audioChunksProduced).map (fun i => muxChunkTask (audioChunkWrite env i))
      { success := true, error := none
        encodeCalls := events.countP FrameEvent.isEncode
        audioEncoderCreated := audioEncoderCreated
        audioExtractionRun := env.hasAudio && audioEncoderCreated
        muxPromisesResolved := videoTasks.length + audioTasks.length
        muxErrorsLogged := (videoTasks ++ audioTasks).countP Option.isSome }

/-- The exporter configuration used for the concrete sample runs below. -/
def sampleSettings : ExporterSettings where
  codec := none
  width := 1920
  height := 1080
  bitrate := 8000000
  frameRate := 30
  trimRegions := none
  hasOnProgress := true

/-- A platform verdict that rejects hardware-preferring encoder
configurations and accepts software-preferring ones. -/
def softwareOnlySupport : VideoEncoderConfig → Bool :=
  fun cfg => cfg.hardwareAcceleration == "prefer-software"

/-- A platform where every video configuration is supported, the source
has an audio track but Opus audio is unsupported, and the muxer rejects
the write of video chunk 0. -/
def sampleEnv : ExportEnv where
  videoSupport := fun _ => true
  audioOpusSupported := false
  hasAudio := true
  hasAudioStream := true
  sourceDuration := 2
  encoderReady := fun _ => true
  videoChunkWriteFails := fun i => i == 0
  audioChunkWriteFails := fun _ => false
  videoChunksProduced := 60
  audioChunksProduced := 0

/-- A platform where only software encoding is supported. -/
def sampleEnvSoftwareOnly : ExportEnv where
  videoSupport := softwareOnlySupport
  audioOpusSupported := true
  hasAudio := false
  hasAudioStream := false
  sourceDuration := 2
  encoderReady := fun _ => true
  videoChunkWriteFails := fun _ => false
  audioChunkWriteFails := fun _ => false
  videoChunksProduced := 60
  audioChunksProduced := 0

/-- A platform where no video encoder configuration is supported. -/
def sampleEnvNoSupport : ExportEnv where
  videoSupport := fun _ => false
  audioOpusSupported := true
  hasAudio := false
  hasAudioStream := false
  sourceDuration := 2
  encoderReady := fun _ => true
  videoChunkWriteFails := fun _ => false
  audioChunkWriteFails := fun _ => false
  videoChunksProduced := 0
  audioChunksProduced := 0

end VideoExporter

namespace VideoExporter

/-- Counterexample to C5: with hardware reported unsupported and software
supported, initialization succeeds but `configure` is called exactly once
(with the software configuration), not twice — the hardware attempt is
only an `isConfigSupported` probe, never a `configure`. -/
theorem initializeEncoder_configure_counterexample :
    (initializeEncoder softwareOnlySupport sampleSettings).2 = Except.ok ()
    ∧ ((initializeEncoder softwareOnlySupport sampleSettings).1.countP
        EncoderInitEvent.isConfigure) = 1
    ∧ ¬ (((initializeEncoder softwareOnlySupport sampleSettings).1.countP
        EncoderInitEvent.isConfigure) = 2) := by
  refine ⟨rfl, rfl, fun h => ?_⟩
  rw [show ((initializeEncoder softwareOnlySupport sampleSettings).1.countP
      EncoderInitEvent.isConfigure) = 1 from rfl] at h
  exact absurd h (by norm_num)

/-- C5 amended: initialization probes the hardware configuration first;
when the probe rejects it but accepts the same configuration with
software acceleration, initialization succeeds after exactly two
`isConfigSupported` probes and exactly one `configure` call (with the
software configuration), and the export succeeds; when both probes
reject, initialization throws and `export()` resolves unsuccessfully
without any `encode()` call. -/
theorem initializeEncoder_fallback_spec (env : ExportEnv) (c : ExporterSettings) :
    (env.videoSupport (hardwareEncoderConfig c) = false →
      env.videoSupport
          { hardwareEncoderConfig c with hardwareAcceleration := "prefer-software" } = true →
        (initializeEncoder env.videoSupport c).2 = Except.ok ()
        ∧ (initializeEncoder env.videoSupport c).1
            = [EncoderInitEvent.checkSupport (hardwareEncoderConfig c),
               EncoderInitEvent.checkSupport
                 { hardwareEncoderConfig c with hardwareAcceleration := "prefer-software" },
               EncoderInitEvent.configureEncoder
                 { hardwareEncoderConfig c with hardwareAcceleration := "prefer-software" }]
        ∧ ((initializeEncoder env.videoSupport c).1.countP EncoderInitEvent.isConfigure) = 1
        ∧ (exportRun env c).success = true)
    ∧ (env.videoSupport (hardwareEncoderConfig c) = false →
      env.videoSupport
          { hardwareEncoderConfig c with hardwareAcceleration := "prefer-software" } = false →
        (initializeEncoder env.videoSupport c).2
            = Except.error "Video encoding not supported on this system"
        ∧ (exportRun env c).success = false
        ∧ (exportRun env c).encodeCalls = 0) := by
  constructor
  · intro h1 h2
    have hinit : initializeEncoder env.videoSupport c
        = ([EncoderInitEvent.checkSupport (hardwareEncoderConfig c),
            EncoderInitEvent.checkSupport
              { hardwareEncoderConfig c with hardwareAcceleration := "prefer-software" },
            EncoderInitEvent.configureEncoder
              { hardwareEncoderConfig c with hardwareAcceleration := "prefer-software" }],
           Except.ok ()) := by
      simp [initializeEncoder, h1, h2]
    refine ⟨by rw [hinit], by rw [hinit], ?_, ?_⟩
    · rw [hinit]
      simp [List.countP_cons, EncoderInitEvent.isConfigure]
    · unfold exportRun
      rw [hinit]
  · intro h1 h2
    have hinit : initializeEncoder env.videoSupport c
        = ([EncoderInitEvent.checkSupport (hardwareEncoderConfig c),
            EncoderInitEvent.checkSupport
              { hardwareEncoderConfig c with hardwareAcceleration := "prefer-software" }],
           Except.error "Video encoding not supported on this system") := by
      simp [initializeEncoder, h1, h2]
    refine ⟨by rw [hinit], ?_, ?_⟩ <;> (unfold exportRun; rw [hinit])

/-- Witness for the amended C5: with the software-only platform the export
succeeds, and with the no-support platform it fails. -/
theorem initializeEncoder_fallback_spec_witness :
    (exportRun sampleEnvSoftwareOnly sampleSettings).success = true
    ∧ (exportRun sampleEnvNoSupport sampleSettings).success = false :=
  ⟨((initializeEncoder_fallback_spec sampleEnvSoftwareOnly sampleSettings).1 rfl rfl).2.2.2,
   ((initializeEncoder_fallback_spec sampleEnvNoSupport sampleSettings).2 rfl rfl).2.1⟩

theorem muxChunkTask_videoWrite_isSome (env : ExportEnv) (i : ℕ) :
    (muxChunkTask (videoChunkWrite env i)).isSome = env.videoChunkWriteFails i := by
  rw [videoChunkWrite]
  split <;> simp_all [muxChunkTask]

theorem muxChunkTask_audioWrite_isSome (env : ExportEnv) (i : ℕ) :
    (muxChunkTask (audioChunkWrite env i)).isSome = env.audioChunkWriteFails i := by
  rw [audioChunkWrite]
  split <;> simp_all [muxChunkTask]

/-- C7: a rejected chunk write is caught inside its own asynchronous mux
task, which still resolves — one resolved task per produced chunk — so
whatever subset of chunk writes fails, `export()` resolves successfully
and the failures are only logged, never surfaced in the result. -/
theorem muxingError_not_surfaced (env : ExportEnv) (c : ExporterSettings)
    (hinit : (initializeEncoder env.videoSupport c).2 = Except.ok ()) :
    (exportRun env c).success = true
    ∧ (exportRun env c).muxPromisesResolved
        = env.videoChunksProduced + env.audioChunksProduced
    ∧ (exportRun env c).muxErrorsLogged
        = (List.range env.videoChunksProduced).countP env.videoChunkWriteFails
          + (List.range env.audioChunksProduced).countP env.audioChunkWriteFails := by
  unfold exportRun
  rw [hinit]
  refine ⟨rfl, by simp, ?_⟩
  simp only [List.countP_append, List.countP_map]
  have hv : List.countP (Option.isSome ∘ fun i => muxChunkTask (videoChunkWrite env i))
      (List.range env.videoChunksProduced)
      = List.countP env.videoChunkWriteFails (List.range env.videoChunksProduced) :=
    List.countP_congr
      (fun i _ => by rw [Function.comp_apply, muxChunkTask_videoWrite_isSome])
  have ha : List.countP (Option.isSome ∘ fun i => muxChunkTask (audioChunkWrite env i))
      (List.range env.audioChunksProduced)
      = List.countP env.audioChunkWriteFails (List.range env.audioChunksProduced) :=
    List.countP_congr
      (fun i _ => by rw [Function.comp_apply, muxChunkTask_audioWrite_isSome])
  rw [hv, ha]

/-- Witness for C7: in the sample environment the write of video chunk 0
is rejected, yet the export resolves with success. -/
theorem muxingError_not_surfaced_witness :
    (exportRun sampleEnv sampleSettings).success = true
    ∧ (exportRun sampleEnv sampleSettings).muxErrorsLogged
        = (List.range 60).countP (fun i => i == 0) :=
  ⟨(muxingError_not_surfaced sampleEnv sampleSettings rfl).1,
   (muxingError_not_surfaced sampleEnv sampleSettings rfl).2.2⟩

/-- C8: when `isConfigSupported` rejects the Opus audio configuration,
no audio encoder is created, the audio extraction pass is skipped, and
the export still resolves successfully — the unsupported audio
configuration never fails the export. -/
theorem audioUnsupported_softFailure (env : ExportEnv) (c : ExporterSettings)
    (hinit : (initializeEncoder env.videoSupport c).2 = Except.ok ())
    (haudio : env.audioOpusSupported = false) :
    (exportRun env c).audioEncoderCreated = false
    ∧ (exportRun env c).audioExtractionRun = false
    ∧ (exportRun env c).success = true := by
  unfold exportRun
  rw [hinit]
  simp [haudio]

/-- Witness for C8: the sample environment has an audio track but no Opus
support; the export is video-only and succeeds. -/
theorem audioUnsupported_softFailure_witness :
    (exportRun sampleEnv sampleSettings).audioEncoderCreated = false
    ∧ (exportRun sampleEnv sampleSettings).success = true := by
  obtain ⟨h1, _h2, h3⟩ := audioUnsupported_softFailure sampleEnv sampleSettings rfl rfl
  exact ⟨h1, h3⟩

end VideoExporter

namespace VideoExporter

/-- The bound on in-flight encode requests, `MAX_ENCODE_QUEUE = 120`. -/
def MAX_ENCODE_QUEUE : ℤ := 120

/-- One atomic transition of the in-flight counter `encodeQueue` during an
export: `submit` is the increment performed immediately before
`encoder.encode`, and the frame loop's backpressure wait (polling with
zero-delay sleeps while `encodeQueue >= MAX_ENCODE_QUEUE`) admits a
submission only when the counter is below the bound; `deliver` is the
decrement performed when a frame's encoded chunk reaches the encoder
output callback. -/
inductive EncodeQueueStep : ℤ → ℤ → Prop
  | submit (q : ℤ) (h : q < MAX_ENCODE_QUEUE) : EncodeQueueStep q (q + 1)
  | deliver (q : ℤ) : EncodeQueueStep q (q - 1)

/-- Counter values reachable from the initial `encodeQueue = 0` by the
submit/deliver protocol. -/
inductive EncodeQueueReachable : ℤ → Prop
  | init : EncodeQueueReachable 0
  | step (q q' : ℤ) : EncodeQueueReachable q → EncodeQueueStep q q' → EncodeQueueReachable q'

/-- C6: throughout an export, the in-flight counter `encodeQueue` never
exceeds `MAX_ENCODE_QUEUE = 120`: every reachable counter value is at most
the bound. -/
theorem encodeQueue_bounded (q : ℤ) (h : EncodeQueueReachable q) : q ≤ MAX_ENCODE_QUEUE := by
  induction h with
  | init => rw [MAX_ENCODE_QUEUE]; omega
  | step q q' _hr hs ih =>
      cases hs with
      | submit hlt => omega
      | deliver => omega

/-- Witness for C6 at the initial counter value 0. -/
theorem encodeQueue_bounded_witness : (0 : ℤ) ≤ MAX_ENCODE_QUEUE :=
  encodeQueue_bounded 0 EncodeQueueReachable.init

end VideoExporter

namespace VideoExporter

/-- The mutable fields of a `VideoExporter` instance; each sub-resource
reference is modelled by whether it is currently non-null. -/
structure ExporterState where
  decoder : Bool
  renderer : Bool
  encoder : Bool
  audioEncoder : Bool
  audioContext : Bool
  audioSource : Bool
  audioProcessor : Bool
  muxer : Bool
  cancelled : Bool
  encodeQueue : ℤ
  muxingPromises : List Unit
  chunkCount : ℕ
  audioChunkCount : ℕ
  videoDescription : Option (List ℕ)
  videoColorSpace : Option String
deriving DecidableEq, Repr

/-- The first `cleanup` step: disconnect and null the audio processor if
it is set (the disconnect error, if any, is swallowed). -/
def releaseAudioProcessor (s : ExporterState) : ExporterState :=
  if s.audioProcessor then { s with audioProcessor := false } else s

/-- Disconnect and null the audio source if it is set. -/
def releaseAudioSource (s : ExporterState) : ExporterState :=
  if s.audioSource then { s with audioSource := false } else s

/-- Close and null the audio context if it is set. -/
def releaseAudioContext (s : ExporterState) : ExporterState :=
  if s.audioContext then { s with audioContext := false } else s

/-- Close (when configured) and null the audio encoder if it is set. -/
def releaseAudioEncoder (s : ExporterState) : ExporterState :=
  if s.audioEncoder then { s with audioEncoder := false } else s

/-- Close (when configured) and null the video encoder if it is set. -/
def releaseEncoder (s : ExporterState) : ExporterState :=
  if s.encoder then { s with encoder := false } else s

/-- Destroy and null the decoder if it is set. -/
def releaseDecoder (s : ExporterState) : ExporterState :=
  if s.decoder then { s with decoder := false } else s

/-- Destroy and null the renderer if it is set. -/
def releaseRenderer (s : ExporterState) : ExporterState :=
  if s.renderer then { s with renderer := false } else s

/-- The unconditional tail of `cleanup`: null the muxer, reset the encode
queue to 0, empty the muxing-promise list, reset the chunk counters and
clear the cached video description and color space. -/
def resetMuxingState (s : ExporterState) : ExporterState :=
  { s with muxer := false, encodeQueue := 0, muxingPromises := []
           chunkCount := 0, audioChunkCount := 0
           videoDescription := none, videoColorSpace := none }

/-- `VideoExporter.cleanup`: release every sub-resource in the source's
order, each step swallowing its own failure, then reset the muxing
state. -/
def cleanup (s : ExporterState) : ExporterState :=
  resetMuxingState (releaseRenderer (releaseDecoder (releaseEncoder (releaseAudioEncoder
    (releaseAudioContext (releaseAudioSource (releaseAudioProcessor s)))))))

/-- `VideoExporter.cancel`: set the cancellation flag and then
synchronously run `cleanup`. -/
def cancel (s : ExporterState) : ExporterState :=
  cleanup { s with cancelled := true }

theorem releaseAudioProcessor_eq (s : ExporterState) :
    releaseAudioProcessor s = { s with audioProcessor := false } := by
  rw [releaseAudioProcessor]
  split
  · rfl
  · cases s
    simp_all

theorem releaseAudioSource_eq (s : ExporterState) :
    releaseAudioSource s = { s with audioSource := false } := by
  rw [releaseAudioSource]
  split
  · rfl
  · cases s
    simp_all

theorem releaseAudioContext_eq (s : ExporterState) :
    releaseAudioContext s = { s with audioContext := false } := by
  rw [releaseAudioContext]
  split
  · rfl
  · cases s
    simp_all

theorem releaseAudioEncoder_eq (s : ExporterState) :
    releaseAudioEncoder s = { s with audioEncoder := false } := by
  rw [releaseAudioEncoder]
  split
  · rfl
  · cases s
    simp_all

theorem releaseEncoder_eq (s : ExporterState) :
    releaseEncoder s = { s with encoder := false } := by
  rw [releaseEncoder]
  split
  · rfl
  · cases s
    simp_all

theorem releaseDecoder_eq (s : ExporterState) :
    releaseDecoder s = { s with decoder := false } := by
  rw [releaseDecoder]
  split
  · rfl
  · cases s
    simp_all

theorem releaseRenderer_eq (s : ExporterState) :
    releaseRenderer s = { s with renderer := false } := by
  rw [releaseRenderer]
  split
  · rfl
  · cases s
    simp_all

theorem cleanup_eq (s : ExporterState) :
    cleanup s = { s with decoder := false, renderer := false, encoder := false
                         audioEncoder := false, audioContext := false, audioSource := false
                         audioProcessor := false, muxer := false, encodeQueue := 0
                         muxingPromises := [], chunkCount := 0, audioChunkCount := 0
                         videoDescription := none, videoColorSpace := none } := by
  rw [cleanup, releaseAudioProcessor_eq, releaseAudioSource_eq, releaseAudioContext_eq,
    releaseAudioEncoder_eq, releaseEncoder_eq, releaseDecoder_eq, releaseRenderer_eq,
    resetMuxingState]

/-- C10: `cancel` sets the cancellation flag and synchronously performs the
whole teardown: when it returns, every sub-resource reference (audio
processor, audio source, audio context, audio encoder, video encoder,
decoder, renderer, muxer) is already null, `encodeQueue` is 0 and
`muxingPromises` is empty. -/
theorem cancel_releases_everything (s : ExporterState) :
    (cancel s).cancelled = true
    ∧ (cancel s).audioProcessor = false
    ∧ (cancel s).audioSource = false
    ∧ (cancel s).audioContext = false
    ∧ (cancel s).audioEncoder = false
    ∧ (cancel s).encoder = false
    ∧ (cancel s).decoder = false
    ∧ (cancel s).renderer = false
    ∧ (cancel s).muxer = false
    ∧ (cancel s).encodeQueue = 0
    ∧ (cancel s).muxingPromises = [] := by
  rw [cancel, cleanup_eq]
  simp

end VideoExporter

